import Mathlib

/-!
Shallow embedding of the Banking System (C++ + MySQL) ledger, from
src/banking_system_cpp_my_sql.cpp.

Modelling decisions, each tied to the source:
* One `BankState` holds the three tables of db.sql (customers, accounts,
  transactions) as lists in insertion order, plus the AUTO_INCREMENT
  counters of the three primary keys.
* DECIMAL(15,2) amounts and balances are modelled as exact rationals.
* A SELECT ... WHERE id = ? is a first-match lookup over the table;
  UPDATE ... WHERE id = ? rewrites every matching row (0 rows is not a
  fault, matching the MySQL semantics the code relies on).
* The Storage Gateway's atomic unit (setAutoCommit(false) .. commit, with
  rollback in the catch block) is `runAtomic`: statements run in order on a
  working state; on a constraint violation, or on an injected storage fault,
  the working state is discarded and the snapshot taken at begin is
  restored; only a fully successful unit commits.  The foreign key
  transactions.account_id REFERENCES accounts(account_id) of db.sql makes an
  INSERT INTO transactions for a missing account a faulting statement.
* created_at timestamps are not modelled; no claim depends on them.
-/

namespace Banking

/-- Row of the customers table (struct Customer in include/bank.h). -/
structure Customer where
  id : Int
  name : String
  email : String
  phone : String
deriving Repr, DecidableEq

/-- Row of the accounts table (struct Account in include/bank.h). -/
structure Account where
  id : Int
  customer_id : Int
  type : String
  balance : Rat
deriving Repr, DecidableEq

/-- Row of the transactions table (struct TransactionRecord in
include/bank.h, without the DB-generated created_at). -/
structure TransactionRecord where
  id : Int
  account_id : Int
  type : String
  amount : Rat
  details : String
deriving Repr, DecidableEq

/-- The persisted state of the banking_system database: the three tables of
db.sql in insertion order and their AUTO_INCREMENT counters. -/
structure BankState where
  customers : List Customer
  accounts : List Account
  transactions : List TransactionRecord
  nextCustomerId : Int
  nextAccountId : Int
  nextTransactionId : Int
deriving Repr, DecidableEq

/-- SELECT * FROM accounts WHERE account_id = ? (first matching row). -/
def lookupAccount : List Account → Int → Option Account
  | [], _ => none
  | a :: rest, i => if a.id = i then some a else lookupAccount rest i

/-- SELECT * FROM customers WHERE customer_id = ? (first matching row). -/
def lookupCustomer : List Customer → Int → Option Customer
  | [], _ => none
  | c :: rest, i => if c.id = i then some c else lookupCustomer rest i

/-- The sentinel Bank::getAccount returns when no row matches: the code only
ever reads its id field (the a.id < 0 checks). -/
def missingAccount : Account :=
  { id := -1, customer_id := -1, type := "", balance := 0 }

/-- Bank::getAccount: the found row, or the id = -1 sentinel. -/
def getAccount (s : BankState) (account_id : Int) : Account :=
  match lookupAccount s.accounts account_id with
  | some a => a
  | none => missingAccount

/-- The sentinel Bank::getCustomer returns when no row matches. -/
def missingCustomer : Customer :=
  { id := -1, name := "", email := "", phone := "" }

/-- Bank::getCustomer: the found row, or the id = -1 sentinel. -/
def getCustomer (s : BankState) (customer_id : Int) : Customer :=
  match lookupCustomer s.customers customer_id with
  | some c => c
  | none => missingCustomer

/-- Effect of UPDATE accounts SET balance = f(balance) WHERE account_id = i
on a single row. -/
def updRow (i : Int) (f : Rat → Rat) (a : Account) : Account :=
  if a.id = i then { a with balance := f a.balance } else a

/-- UPDATE accounts SET balance = f(balance) WHERE account_id = i, applied
to the whole table (every matching row is rewritten; zero matches is not a
fault). -/
def updRows (l : List Account) (i : Int) (f : Rat → Rat) : List Account :=
  l.map (updRow i f)

/-- The mutating SQL statements the Ledger Engine issues inside an atomic
unit (src/bank.cpp deposit / withdraw / transfer). -/
inductive Stmt where
  | credit (account_id : Int) (amount : Rat)
  | debit (account_id : Int) (amount : Rat)
  | insertTx (account_id : Int) (txType : String) (amount : Rat) (details : String)
deriving Repr, DecidableEq

/-- One statement against the store.  credit / debit are the two UPDATE
forms (balance + ?, balance - ?).  insertTx is
INSERT INTO transactions(account_id,type,amount,details); it faults (none)
when the foreign key transactions.account_id -> accounts is violated, i.e.
when no accounts row carries that id. -/
def execStmt (s : BankState) : Stmt → Option BankState
  | Stmt.credit i amt => some { s with accounts := updRows s.accounts i (fun b => b + amt) }
  | Stmt.debit i amt => some { s with accounts := updRows s.accounts i (fun b => b - amt) }
  | Stmt.insertTx i ty amt det =>
      if (lookupAccount s.accounts i).isSome then
        some { s with
                 transactions := s.transactions ++
                   [{ id := s.nextTransactionId, account_id := i,
                      type := ty, amount := amt, details := det }],
                 nextTransactionId := s.nextTransactionId + 1 }
      else none

/-- Runs the statements of one atomic unit in order on a working state.
none means the unit aborted: either a statement faulted (e.g. a foreign-key
violation) or an injected storage fault fired.  fault = some k schedules a
storage fault immediately after k statements have executed; if fewer than
k statements exist the fault fires at commit time, still inside the unit,
except that a countdown that never reaches zero leaves the unit untouched. -/
def execUnit : BankState → List Stmt → Option Nat → Option BankState
  | _, _, some 0 => none
  | s, [], _ => some s
  | s, st :: rest, fault =>
      match execStmt s st with
      | none => none
      | some s' => execUnit s' rest (Option.map Nat.pred fault)

/-- setAutoCommit(false); statements; commit  — with rollback to the
snapshot taken at begin whenever the unit aborts (the catch block of each
operation).  This is the atomic-unit contract of the Storage Gateway. -/
def runAtomic (s : BankState) (stmts : List Stmt) (fault : Option Nat) : Bool × BankState :=
  match execUnit s stmts fault with
  | some s' => (true, s')
  | none => (false, s)

/-- Bank::createCustomer.  The INSERT has no name validation in the code,
and the schema's NOT NULL does not reject an empty string, so the insert
succeeds for every name; the new AUTO_INCREMENT id is returned
(LAST_INSERT_ID). -/
def createCustomer (s : BankState) (name email phone : String) : Int × BankState :=
  (s.nextCustomerId,
   { s with
       customers := s.customers ++
         [{ id := s.nextCustomerId, name := name, email := email, phone := phone }],
       nextCustomerId := s.nextCustomerId + 1 })

/-- Bank::createAccount.  The INSERT sets balance to 0; the foreign key
accounts.customer_id -> customers makes it fault (returning -1 from the
catch block) when the customer is missing. -/
def createAccount (s : BankState) (customer_id : Int) (acctType : String) : Int × BankState :=
  if (lookupCustomer s.customers customer_id).isSome then
    (s.nextAccountId,
     { s with
         accounts := s.accounts ++
           [{ id := s.nextAccountId, customer_id := customer_id,
              type := acctType, balance := 0 }],
         nextAccountId := s.nextAccountId + 1 })
  else (-1, s)

/-- Bank::deposit: reject amount <= 0 before touching storage, then one
atomic unit of UPDATE + INSERT (the UPDATE silently matches 0 rows for a
missing account, and the INSERT then faults on the foreign key). -/
def deposit (s : BankState) (account_id : Int) (amount : Rat) : Bool × BankState :=
  if amount ≤ 0 then (false, s)
  else
    runAtomic s
      [Stmt.credit account_id amount,
       Stmt.insertTx account_id "DEPOSIT" amount "Deposit via app"]
      none

/-- The pre-transaction part of Bank::withdraw: the amount guard and the
balance check done through getAccount in autocommit mode, before
setAutoCommit(false). -/
def withdrawCheck (s : BankState) (account_id : Int) (amount : Rat) : Bool :=
  if amount ≤ 0 then false
  else
    let a := getAccount s account_id
    if a.id < 0 then false
    else if a.balance < amount then false
    else true

/-- The transactional part of Bank::withdraw: debit plus WITHDRAW record,
one atomic unit, no re-check of the balance. -/
def withdrawMutate (s : BankState) (account_id : Int) (amount : Rat) : Bool × BankState :=
  runAtomic s
    [Stmt.debit account_id amount,
     Stmt.insertTx account_id "WITHDRAW" amount "Withdrawal via app"]
    none

/-- Bank::withdraw = check phase, then (only if it passed) mutate phase. -/
def withdraw (s : BankState) (account_id : Int) (amount : Rat) : Bool × BankState :=
  if withdrawCheck s account_id amount then withdrawMutate s account_id amount
  else (false, s)

/-- Bank::transfer with an injectable storage fault inside its atomic unit:
guards in code order (amount, both getAccount lookups, source balance),
then the four effects — debit source, credit destination, TRANSFER record
on source, DEPOSIT record on destination — in one atomic unit. -/
def transferWith (s : BankState) (from_id to_id : Int) (amount : Rat)
    (fault : Option Nat) : Bool × BankState :=
  if amount ≤ 0 then (false, s)
  else
    let a_from := getAccount s from_id
    let a_to := getAccount s to_id
    if a_from.id < 0 ∨ a_to.id < 0 then (false, s)
    else if a_from.balance < amount then (false, s)
    else
      runAtomic s
        [Stmt.debit from_id amount,
         Stmt.credit to_id amount,
         Stmt.insertTx from_id "TRANSFER" amount ("Transfer to account " ++ toString to_id),
         Stmt.insertTx to_id "DEPOSIT" amount ("Transfer from account " ++ toString from_id)]
        fault

/-- Bank::transfer as the code runs it: no injected fault. -/
def transfer (s : BankState) (from_id to_id : Int) (amount : Rat) : Bool × BankState :=
  transferWith s from_id to_id amount none

/-- A committed-or-declined ledger operation, as issued by a caller. -/
inductive Op where
  | dep (account_id : Int) (amount : Rat)
  | wd (account_id : Int) (amount : Rat)
  | xfer (from_id to_id : Int) (amount : Rat)
deriving Repr, DecidableEq

/-- Runs one operation; a declined operation leaves the state unchanged. -/
def applyOp (s : BankState) : Op → Bool × BankState
  | Op.dep i amt => deposit s i amt
  | Op.wd i amt => withdraw s i amt
  | Op.xfer f t amt => transfer s f t amt

/-- Runs a finite sequence of operations in order (each one sequentially,
i.e. each operation sees the committed state left by the previous one). -/
def runOps (s : BankState) : List Op → BankState
  | [] => s
  | op :: rest => runOps (applyOp s op).2 rest

/-- The accounts table respects its PRIMARY KEY: no two rows share an id. -/
abbrev uniqIds (s : BankState) : Prop := (s.accounts.map Account.id).Nodup

/-- Every account balance is nonnegative. -/
abbrev nonnegBalances (s : BankState) : Prop := ∀ a ∈ s.accounts, 0 ≤ a.balance

/-- The signed value of an audit record for reconciliation: DEPOSIT rows
count positive, WITHDRAW and TRANSFER (debit-leg) rows count negative. -/
def signedAmount (t : TransactionRecord) : Rat :=
  if t.type = "DEPOSIT" then t.amount else -t.amount

/-- Sum of the signed amounts of all records referencing one account. -/
def txSum (ts : List TransactionRecord) (i : Int) : Rat :=
  ((ts.filter (fun t => t.account_id = i)).map signedAmount).sum

/-- The reconciliation invariant: every balance equals the signed sum of
the audit records referencing that account. -/
abbrev reconciled (s : BankState) : Prop :=
  ∀ a ∈ s.accounts, a.balance = txSum s.transactions a.id

/-- The interleaving of two concurrent withdraw calls on the same account
in which both autocommit reads (the check phase) execute before either
transactional debit (the mutate phase).  The code permits this schedule
because getAccount runs outside the atomic unit and the unit never
re-checks the balance.  Returns both reported results and the final
state. -/
def twoWithdrawsBothCheckFirst (s : BankState) (account_id : Int) (amount : Rat) :
    Bool × Bool × BankState :=
  let c1 := withdrawCheck s account_id amount
  let c2 := withdrawCheck s account_id amount
  let r1 := if c1 then withdrawMutate s account_id amount else (false, s)
  let r2 := if c2 then withdrawMutate r1.2 account_id amount else (false, r1.2)
  (r1.1, r2.1, r2.2)

/-- The empty database right after db.sql has run. -/
def initialState : BankState :=
  { customers := [], accounts := [], transactions := [],
    nextCustomerId := 1, nextAccountId := 1, nextTransactionId := 1 }

/-- One customer holding account 1 with balance 100 (the concurrency
scenario of the specification). -/
def stateBal100 : BankState :=
  { customers := [{ id := 1, name := "Alice", email := "a@x.com", phone := "555-0100" }],
    accounts := [{ id := 1, customer_id := 1, type := "SAVINGS", balance := 100 }],
    transactions := [],
    nextCustomerId := 2, nextAccountId := 2, nextTransactionId := 1 }

/-- One customer holding account 1 with balance 5: the account exists but
is too poor for a 10-unit withdrawal. -/
def statePoor : BankState :=
  { customers := [{ id := 1, name := "Bob", email := "b@x.com", phone := "555-0101" }],
    accounts := [{ id := 1, customer_id := 1, type := "SAVINGS", balance := 5 }],
    transactions := [],
    nextCustomerId := 2, nextAccountId := 2, nextTransactionId := 1 }

/-- Two zero-balance accounts with an empty audit log (reconciled). -/
def stateTwoFresh : BankState :=
  { customers := [{ id := 1, name := "Alice", email := "a@x.com", phone := "555-0100" }],
    accounts := [{ id := 10, customer_id := 1, type := "SAVINGS", balance := 0 },
                 { id := 11, customer_id := 1, type := "SAVINGS", balance := 0 }],
    transactions := [],
    nextCustomerId := 2, nextAccountId := 12, nextTransactionId := 1 }

/-- The scenario sequence of the specification: deposit 50 to account 10,
withdraw 20 from it, transfer 10 from account 10 to account 11. -/
def demoOps : List Op := [Op.dep 10 50, Op.wd 10 20, Op.xfer 10 11 10]

/-- One customer holding account 1 with balance 100 and account 2 with
balance 30. -/
def stateTwoAccts : BankState :=
  { customers := [{ id := 1, name := "Alice", email := "a@x.com", phone := "555-0100" }],
    accounts := [{ id := 1, customer_id := 1, type := "SAVINGS", balance := 100 },
                 { id := 2, customer_id := 1, type := "CURRENT", balance := 30 }],
    transactions := [],
    nextCustomerId := 2, nextAccountId := 3, nextTransactionId := 1 }

/-- The record a successful deposit appends. -/
def depositRec (s : BankState) (i : Int) (amt : Rat) : TransactionRecord :=
  { id := s.nextTransactionId, account_id := i, type := "DEPOSIT",
    amount := amt, details := "Deposit via app" }

/-- The state a successful deposit commits. -/
def depositApplied (s : BankState) (i : Int) (amt : Rat) : BankState :=
  { s with accounts := updRows s.accounts i (fun b => b + amt),
           transactions := s.transactions ++ [depositRec s i amt],
           nextTransactionId := s.nextTransactionId + 1 }

/-- The record a successful withdrawal appends. -/
def withdrawRec (s : BankState) (i : Int) (amt : Rat) : TransactionRecord :=
  { id := s.nextTransactionId, account_id := i, type := "WITHDRAW",
    amount := amt, details := "Withdrawal via app" }

/-- The state a successful withdrawal commits. -/
def withdrawApplied (s : BankState) (i : Int) (amt : Rat) : BankState :=
  { s with accounts := updRows s.accounts i (fun b => b - amt),
           transactions := s.transactions ++ [withdrawRec s i amt],
           nextTransactionId := s.nextTransactionId + 1 }

/-- The debit-leg record of a successful transfer (on the source). -/
def transferRecFrom (s : BankState) (f t : Int) (amt : Rat) : TransactionRecord :=
  { id := s.nextTransactionId, account_id := f, type := "TRANSFER",
    amount := amt, details := "Transfer to account " ++ toString t }

/-- The credit-leg record of a successful transfer (on the destination). -/
def transferRecTo (s : BankState) (f t : Int) (amt : Rat) : TransactionRecord :=
  { id := s.nextTransactionId + 1, account_id := t, type := "DEPOSIT",
    amount := amt, details := "Transfer from account " ++ toString f }

/-- The state a successful transfer commits (written in the exact shape the
two UPDATEs and two INSERTs of the atomic unit produce it in). -/
def transferApplied (s : BankState) (f t : Int) (amt : Rat) : BankState :=
  { s with accounts := updRows (updRows s.accounts f (fun b => b - amt)) t (fun b => b + amt),
           transactions := (s.transactions ++ [transferRecFrom s f t amt]) ++ [transferRecTo s f t amt],
           nextTransactionId := s.nextTransactionId + 1 + 1 }

theorem transferApplied_transactions (s : BankState) (f t : Int) (amt : Rat) :
    (transferApplied s f t amt).transactions =
      s.transactions ++ [transferRecFrom s f t amt, transferRecTo s f t amt] := by
  simp [transferApplied, List.append_assoc]

/-! Lookup and update lemmas over the accounts table. -/

theorem updRow_id (i : Int) (f : Rat → Rat) (a : Account) : (updRow i f a).id = a.id := by
  unfold updRow
  by_cases h : a.id = i <;> simp [h]

theorem lookupAccount_id {l : List Account} {i : Int} {a : Account}
    (h : lookupAccount l i = some a) : a.id = i := by
  induction l with
  | nil => simp [lookupAccount] at h
  | cons b rest ih =>
    by_cases hb : b.id = i
    · simp [lookupAccount, hb] at h
      rw [← h, hb]
    · simp [lookupAccount, hb] at h
      exact ih h

theorem lookupAccount_mem {l : List Account} {i : Int} {a : Account}
    (h : lookupAccount l i = some a) : a ∈ l := by
  induction l with
  | nil => simp [lookupAccount] at h
  | cons b rest ih =>
    by_cases hb : b.id = i
    · simp [lookupAccount, hb] at h
      simp [h]
    · simp [lookupAccount, hb] at h
      exact List.mem_cons_of_mem _ (ih h)

theorem lookup_updRows (l : List Account) (i : Int) (f : Rat → Rat) (j : Int) :
    lookupAccount (updRows l i f) j = (lookupAccount l j).map (updRow i f) := by
  induction l with
  | nil => simp [updRows, lookupAccount]
  | cons b rest ih =>
    by_cases hb : b.id = j
    · simp [updRows, lookupAccount, updRow_id, hb]
    · simp only [updRows, List.map_cons, lookupAccount, updRow_id, hb, if_false]
      exact ih

theorem isSome_lookup_updRows (l : List Account) (i : Int) (f : Rat → Rat) (j : Int) :
    (lookupAccount (updRows l i f) j).isSome = (lookupAccount l j).isSome := by
  rw [lookup_updRows]
  cases lookupAccount l j <;> rfl

theorem mapId_updRows (l : List Account) (i : Int) (f : Rat → Rat) :
    (updRows l i f).map Account.id = l.map Account.id := by
  unfold updRows
  rw [List.map_map]
  apply List.map_congr_left
  intro a _
  exact updRow_id i f a

theorem mem_updRows {l : List Account} {i : Int} {f : Rat → Rat} {a' : Account}
    (h : a' ∈ updRows l i f) : ∃ a ∈ l, a' = updRow i f a := by
  unfold updRows at h
  obtain ⟨a, ha, rfl⟩ := List.mem_map.mp h
  exact ⟨a, ha, rfl⟩

theorem lookup_of_mem_uniq {l : List Account} {a : Account}
    (hu : (l.map Account.id).Nodup) (hm : a ∈ l) : lookupAccount l a.id = some a := by
  induction l with
  | nil => simp at hm
  | cons b rest ih =>
    rw [List.map_cons, List.nodup_cons] at hu
    rcases List.mem_cons.mp hm with rfl | hm'
    · simp [lookupAccount]
    · have hne : b.id ≠ a.id := by
        intro he
        exact hu.1 (he ▸ List.mem_map_of_mem Account.id hm')
      simp only [lookupAccount, hne, if_false]
      exact ih hu.2 hm'

theorem updRows_updRows (l : List Account) (i : Int) (f g : Rat → Rat) :
    updRows (updRows l i f) i g = updRows l i (fun b => g (f b)) := by
  unfold updRows
  rw [List.map_map]
  apply List.map_congr_left
  intro a _
  unfold updRow
  by_cases h : a.id = i <;> simp [h]

theorem updRows_ident (l : List Account) (i : Int) : updRows l i (fun b => b) = l := by
  unfold updRows updRow
  have : ∀ a : Account, (if a.id = i then { a with balance := a.balance } else a) = a := by
    intro a
    by_cases h : a.id = i
    · rw [if_pos h]
    · rw [if_neg h]
  simp only [this, List.map_id']

/-! Evaluation lemmas for the atomic unit. -/

theorem execUnit_cons_none (s : BankState) (st : Stmt) (rest : List Stmt) :
    execUnit s (st :: rest) none =
      (execStmt s st).bind (fun s' => execUnit s' rest none) := by
  show (match execStmt s st with
        | none => none
        | some s' => execUnit s' rest (Option.map Nat.pred none)) = _
  cases execStmt s st <;> rfl

theorem execStmt_insertTx_ok (s : BankState) (i : Int) (ty : String) (amt : Rat)
    (det : String) (hex : (lookupAccount s.accounts i).isSome = true) :
    execStmt s (Stmt.insertTx i ty amt det) =
      some { s with
               transactions := s.transactions ++
                 [{ id := s.nextTransactionId, account_id := i,
                    type := ty, amount := amt, details := det }],
               nextTransactionId := s.nextTransactionId + 1 } := by
  simp only [execStmt]
  rw [if_pos hex]

theorem execStmt_insertTx_fk (s : BankState) (i : Int) (ty : String) (amt : Rat)
    (det : String) (hmiss : lookupAccount s.accounts i = none) :
    execStmt s (Stmt.insertTx i ty amt det) = none := by
  simp only [execStmt]
  rw [if_neg]
  rw [hmiss]
  simp

/-- A storage fault scheduled anywhere inside the unit (after at most as
many statements as the unit holds) always aborts it. -/
theorem execUnit_fault (stmts : List Stmt) : ∀ (s : BankState) (k : Nat),
    k ≤ stmts.length → execUnit s stmts (some k) = none := by
  induction stmts with
  | nil =>
    intro s k hk
    have hz : k = 0 := Nat.le_zero.mp hk
    subst hz
    rfl
  | cons st rest ih =>
    intro s k hk
    cases k with
    | zero => rfl
    | succ k' =>
      have hk' : k' ≤ rest.length := Nat.le_of_succ_le_succ hk
      show (match execStmt s st with
            | none => none
            | some s' => execUnit s' rest (Option.map Nat.pred (some (k' + 1)))) = none
      cases execStmt s st with
      | none => rfl
      | some s' => exact ih s' k' hk'

/-! Branch-by-branch evaluation of deposit. -/

theorem deposit_nonpos (s : BankState) (i : Int) (amt : Rat) (h : amt ≤ 0) :
    deposit s i amt = (false, s) := by
  unfold deposit
  rw [if_pos h]

theorem deposit_missing (s : BankState) (i : Int) (amt : Rat)
    (hmiss : lookupAccount s.accounts i = none) :
    deposit s i amt = (false, s) := by
  unfold deposit
  by_cases hpos : amt ≤ 0
  · rw [if_pos hpos]
  · rw [if_neg hpos]
    unfold runAtomic
    rw [execUnit_cons_none]
    have h1 : execStmt s (Stmt.credit i amt) =
        some { s with accounts := updRows s.accounts i (fun b => b + amt) } := rfl
    have hmiss2 : lookupAccount (updRows s.accounts i (fun b => b + amt)) i = none := by
      rw [lookup_updRows, hmiss]
      rfl
    rw [h1, Option.some_bind, execUnit_cons_none,
        execStmt_insertTx_fk _ _ _ _ _ hmiss2]
    rfl

theorem deposit_committed (s : BankState) (i : Int) (amt : Rat)
    (hpos : ¬ amt ≤ 0) (hex : (lookupAccount s.accounts i).isSome = true) :
    deposit s i amt = (true, depositApplied s i amt) := by
  unfold deposit
  rw [if_neg hpos]
  unfold runAtomic
  rw [execUnit_cons_none]
  have h1 : execStmt s (Stmt.credit i amt) =
      some { s with accounts := updRows s.accounts i (fun b => b + amt) } := rfl
  rw [h1, Option.some_bind, execUnit_cons_none, execStmt_insertTx_ok]
  · rfl
  · rw [isSome_lookup_updRows]
    exact hex

/-! Branch-by-branch evaluation of withdraw. -/

theorem withdraw_nonpos (s : BankState) (i : Int) (amt : Rat) (h : amt ≤ 0) :
    withdraw s i amt = (false, s) := by
  have hchk : withdrawCheck s i amt = false := by
    unfold withdrawCheck
    rw [if_pos h]
  unfold withdraw
  rw [hchk]
  rfl

theorem withdraw_missing (s : BankState) (i : Int) (amt : Rat)
    (hmiss : lookupAccount s.accounts i = none) :
    withdraw s i amt = (false, s) := by
  have hchk : withdrawCheck s i amt = false := by
    simp only [withdrawCheck, getAccount, hmiss]
    by_cases hpos : amt ≤ 0
    · rw [if_pos hpos]
    · rw [if_neg hpos, if_pos (show missingAccount.id < 0 by decide)]
  unfold withdraw
  rw [hchk]
  rfl

theorem withdraw_insufficient (s : BankState) (i : Int) (amt : Rat) {a : Account}
    (h : lookupAccount s.accounts i = some a) (hbal : a.balance < amt) :
    withdraw s i amt = (false, s) := by
  have hchk : withdrawCheck s i amt = false := by
    simp only [withdrawCheck, getAccount, h]
    by_cases hpos : amt ≤ 0
    · rw [if_pos hpos]
    · rw [if_neg hpos]
      by_cases hid : a.id < 0
      · rw [if_pos hid]
      · rw [if_neg hid, if_pos hbal]
  unfold withdraw
  rw [hchk]
  rfl

theorem withdraw_committed (s : BankState) (i : Int) (amt : Rat) {a : Account}
    (h : lookupAccount s.accounts i = some a) (hid : ¬ a.id < 0)
    (hpos : ¬ amt ≤ 0) (hbal : ¬ a.balance < amt) :
    withdraw s i amt = (true, withdrawApplied s i amt) := by
  have hchk : withdrawCheck s i amt = true := by
    simp only [withdrawCheck, getAccount, h]
    rw [if_neg hpos, if_neg hid, if_neg hbal]
  unfold withdraw
  rw [hchk]
  show withdrawMutate s i amt = _
  unfold withdrawMutate runAtomic
  rw [execUnit_cons_none]
  have e1 : execStmt s (Stmt.debit i amt) =
      some { s with accounts := updRows s.accounts i (fun b => b - amt) } := rfl
  have hex2 : (lookupAccount (updRows s.accounts i (fun b => b - amt)) i).isSome = true := by
    rw [isSome_lookup_updRows, h]
    rfl
  rw [e1, Option.some_bind, execUnit_cons_none,
      execStmt_insertTx_ok _ _ _ _ _ hex2, Option.some_bind]
  rfl

/-! Branch-by-branch evaluation of transfer, fault parameter included. -/

theorem transfer_nonpos (s : BankState) (f t : Int) (amt : Rat) (fault : Option Nat)
    (h : amt ≤ 0) : transferWith s f t amt fault = (false, s) := by
  unfold transferWith
  rw [if_pos h]

theorem transfer_from_missing (s : BankState) (f t : Int) (amt : Rat) (fault : Option Nat)
    (hmiss : lookupAccount s.accounts f = none) :
    transferWith s f t amt fault = (false, s) := by
  unfold transferWith
  by_cases hpos : amt ≤ 0
  · rw [if_pos hpos]
  · rw [if_neg hpos]
    simp only [getAccount, hmiss]
    rw [if_pos (Or.inl (show missingAccount.id < 0 by decide))]

theorem transfer_to_missing (s : BankState) (f t : Int) (amt : Rat) (fault : Option Nat)
    (hmiss : lookupAccount s.accounts t = none) :
    transferWith s f t amt fault = (false, s) := by
  unfold transferWith
  by_cases hpos : amt ≤ 0
  · rw [if_pos hpos]
  · rw [if_neg hpos]
    simp only [getAccount, hmiss]
    rw [if_pos (Or.inr (show missingAccount.id < 0 by decide))]

theorem transfer_insufficient (s : BankState) (f t : Int) (amt : Rat) (fault : Option Nat)
    {af : Account} (hf : lookupAccount s.accounts f = some af)
    (hbal : af.balance < amt) :
    transferWith s f t amt fault = (false, s) := by
  unfold transferWith
  by_cases hpos : amt ≤ 0
  · rw [if_pos hpos]
  · rw [if_neg hpos]
    simp only [getAccount, hf]
    by_cases hid : af.id < 0 ∨ (match lookupAccount s.accounts t with
                                 | some a => a
                                 | none => missingAccount).id < 0
    · rw [if_pos hid]
    · rw [if_neg hid, if_pos hbal]

theorem transfer_committed (s : BankState) (f t : Int) (amt : Rat) {af at' : Account}
    (hf : lookupAccount s.accounts f = some af) (ht : lookupAccount s.accounts t = some at')
    (hidf : ¬ af.id < 0) (hidt : ¬ at'.id < 0)
    (hpos : ¬ amt ≤ 0) (hbal : ¬ af.balance < amt) :
    transferWith s f t amt none = (true, transferApplied s f t amt) := by
  have hex3 : (lookupAccount
      (updRows (updRows s.accounts f (fun b => b - amt)) t (fun b => b + amt)) f).isSome
      = true := by
    rw [isSome_lookup_updRows, isSome_lookup_updRows, hf]
    rfl
  have hex4 : (lookupAccount
      (updRows (updRows s.accounts f (fun b => b - amt)) t (fun b => b + amt)) t).isSome
      = true := by
    rw [isSome_lookup_updRows, isSome_lookup_updRows, ht]
    rfl
  have run : execUnit s
      [Stmt.debit f amt, Stmt.credit t amt,
       Stmt.insertTx f "TRANSFER" amt ("Transfer to account " ++ toString t),
       Stmt.insertTx t "DEPOSIT" amt ("Transfer from account " ++ toString f)] none
      = some (transferApplied s f t amt) := by
    rw [execUnit_cons_none]
    rw [show execStmt s (Stmt.debit f amt) =
          some { s with accounts := updRows s.accounts f (fun b => b - amt) } from rfl,
        Option.some_bind, execUnit_cons_none]
    rw [show execStmt { s with accounts := updRows s.accounts f (fun b => b - amt) }
          (Stmt.credit t amt) =
          some { s with
                 accounts := updRows (updRows s.accounts f (fun b => b - amt)) t
                               (fun b => b + amt) } from rfl,
        Option.some_bind, execUnit_cons_none]
    have e3 : execStmt
        { s with
          accounts := updRows (updRows s.accounts f (fun b => b - amt)) t (fun b => b + amt) }
        (Stmt.insertTx f "TRANSFER" amt ("Transfer to account " ++ toString t)) =
        some { s with
               accounts := updRows (updRows s.accounts f (fun b => b - amt)) t (fun b => b + amt),
               transactions := s.transactions ++ [transferRecFrom s f t amt],
               nextTransactionId := s.nextTransactionId + 1 } := by
      simp only [execStmt]
      rw [if_pos hex3]
      rfl
    rw [e3, Option.some_bind, execUnit_cons_none]
    have e4 : execStmt
        { s with
          accounts := updRows (updRows s.accounts f (fun b => b - amt)) t (fun b => b + amt),
          transactions := s.transactions ++ [transferRecFrom s f t amt],
          nextTransactionId := s.nextTransactionId + 1 }
        (Stmt.insertTx t "DEPOSIT" amt ("Transfer from account " ++ toString f)) =
        some (transferApplied s f t amt) := by
      simp only [execStmt]
      rw [if_pos hex4]
      rfl
    rw [e4, Option.some_bind]
    rfl
  unfold transferWith
  simp only [getAccount, hf, ht]
  rw [if_neg hpos, if_neg (not_or.mpr ⟨hidf, hidt⟩), if_neg hbal]
  unfold runAtomic
  rw [run]

theorem withdraw_negid (s : BankState) (i : Int) (amt : Rat) {a : Account}
    (h : lookupAccount s.accounts i = some a) (hid : a.id < 0) :
    withdraw s i amt = (false, s) := by
  have hchk : withdrawCheck s i amt = false := by
    simp only [withdrawCheck, getAccount, h]
    by_cases hpos : amt ≤ 0
    · rw [if_pos hpos]
    · rw [if_neg hpos, if_pos hid]
  unfold withdraw
  rw [hchk]
  rfl

theorem transfer_negid (s : BankState) (f t : Int) (amt : Rat) (fault : Option Nat)
    {af at' : Account} (hf : lookupAccount s.accounts f = some af)
    (ht : lookupAccount s.accounts t = some at') (hid : af.id < 0 ∨ at'.id < 0) :
    transferWith s f t amt fault = (false, s) := by
  unfold transferWith
  by_cases hpos : amt ≤ 0
  · rw [if_pos hpos]
  · rw [if_neg hpos]
    simp only [getAccount, hf, ht]
    rw [if_pos hid]

/-! Preservation of the accounts table's ids by every operation. -/

theorem execStmt_mapId {s s' : BankState} {st : Stmt} (h : execStmt s st = some s') :
    s'.accounts.map Account.id = s.accounts.map Account.id := by
  cases st with
  | credit i amt =>
    simp only [execStmt, Option.some.injEq] at h
    rw [← h]
    exact mapId_updRows s.accounts i _
  | debit i amt =>
    simp only [execStmt, Option.some.injEq] at h
    rw [← h]
    exact mapId_updRows s.accounts i _
  | insertTx i ty amt det =>
    simp only [execStmt] at h
    by_cases hc : (lookupAccount s.accounts i).isSome = true
    · rw [if_pos hc, Option.some.injEq] at h
      rw [← h]
    · rw [if_neg hc] at h
      exact absurd h (by simp)

theorem execUnit_mapId (stmts : List Stmt) : ∀ {s s' : BankState} {fault : Option Nat},
    execUnit s stmts fault = some s' →
    s'.accounts.map Account.id = s.accounts.map Account.id := by
  induction stmts with
  | nil =>
    intro s s' fault h
    cases fault with
    | none =>
      have : s = s' := by
        simpa [execUnit] using h
      rw [this]
    | some k =>
      cases k with
      | zero => exact absurd h (by simp [execUnit])
      | succ k' =>
        have : s = s' := by
          simpa [execUnit] using h
        rw [this]
  | cons st rest ih =>
    intro s s' fault h
    have step : ∀ (fa : Option Nat), execUnit s (st :: rest) fa = some s' →
        fa ≠ some 0 →
        ∃ s1, execStmt s st = some s1 ∧ execUnit s1 rest (Option.map Nat.pred fa) = some s' := by
      intro fa hfa hne
      cases fa with
      | none =>
        rw [show execUnit s (st :: rest) none =
              (match execStmt s st with
               | none => none
               | some s1 => execUnit s1 rest (Option.map Nat.pred none)) from rfl] at hfa
        cases hst : execStmt s st with
        | none => rw [hst] at hfa; exact absurd hfa (by simp)
        | some s1 => rw [hst] at hfa; exact ⟨s1, rfl, hfa⟩
      | some k =>
        cases k with
        | zero => exact absurd rfl hne
        | succ k' =>
          rw [show execUnit s (st :: rest) (some (k' + 1)) =
                (match execStmt s st with
                 | none => none
                 | some s1 => execUnit s1 rest (Option.map Nat.pred (some (k' + 1)))) from rfl] at hfa
          cases hst : execStmt s st with
          | none => rw [hst] at hfa; exact absurd hfa (by simp)
          | some s1 => rw [hst] at hfa; exact ⟨s1, rfl, hfa⟩
    cases fault with
    | none =>
      obtain ⟨s1, hst, hrest⟩ := step none h (by simp)
      rw [ih hrest, execStmt_mapId hst]
    | some k =>
      cases k with
      | zero => exact absurd h (by simp [execUnit])
      | succ k' =>
        obtain ⟨s1, hst, hrest⟩ := step (some (k' + 1)) h (by simp)
        rw [ih hrest, execStmt_mapId hst]

theorem runAtomic_mapId (s : BankState) (stmts : List Stmt) (fault : Option Nat) :
    ((runAtomic s stmts fault).2).accounts.map Account.id = s.accounts.map Account.id := by
  unfold runAtomic
  cases h : execUnit s stmts fault with
  | none => rfl
  | some s' => exact execUnit_mapId stmts h

theorem applyOp_mapId (s : BankState) (op : Op) :
    ((applyOp s op).2).accounts.map Account.id = s.accounts.map Account.id := by
  cases op with
  | dep i amt =>
    show ((deposit s i amt).2).accounts.map Account.id = _
    unfold deposit
    by_cases hpos : amt ≤ 0
    · rw [if_pos hpos]
    · rw [if_neg hpos]
      exact runAtomic_mapId s _ none
  | wd i amt =>
    show ((withdraw s i amt).2).accounts.map Account.id = _
    unfold withdraw
    by_cases hchk : withdrawCheck s i amt = true
    · rw [hchk, if_pos rfl]
      exact runAtomic_mapId s _ none
    · rw [eq_false_of_ne_true hchk, if_neg (by simp)]
  | xfer f t amt =>
    show ((transferWith s f t amt none).2).accounts.map Account.id = _
    unfold transferWith
    by_cases h1 : amt ≤ 0
    · rw [if_pos h1]
    · rw [if_neg h1]
      by_cases h2 : (getAccount s f).id < 0 ∨ (getAccount s t).id < 0
      · rw [if_pos h2]
      · rw [if_neg h2]
        by_cases h3 : (getAccount s f).balance < amt
        · rw [if_pos h3]
        · rw [if_neg h3]
          exact runAtomic_mapId s _ none

theorem uniqIds_applyOp {s : BankState} (op : Op) (hu : uniqIds s) :
    uniqIds (applyOp s op).2 := by
  show ((applyOp s op).2.accounts.map Account.id).Nodup
  rw [applyOp_mapId]
  exact hu

/-! Preservation of nonnegative balances by every operation (this is where
the PRIMARY KEY uniqueness of account ids matters: the code checks the
first row getAccount finds, and the UPDATE rewrites every matching row). -/

theorem nonneg_updRows_add {l : List Account} {i : Int} {amt : Rat}
    (h : ∀ a ∈ l, 0 ≤ a.balance) (hamt : 0 ≤ amt) :
    ∀ a ∈ updRows l i (fun b => b + amt), 0 ≤ a.balance := by
  intro a' ha'
  obtain ⟨a, ha, rfl⟩ := mem_updRows ha'
  unfold updRow
  by_cases hid : a.id = i
  · rw [if_pos hid]
    show 0 ≤ a.balance + amt
    exact add_nonneg (h a ha) hamt
  · rw [if_neg hid]
    exact h a ha

theorem nonneg_updRows_sub {l : List Account} {i : Int} {amt : Rat} {a0 : Account}
    (hu : (l.map Account.id).Nodup) (h : ∀ a ∈ l, 0 ≤ a.balance)
    (hl : lookupAccount l i = some a0) (hbal : amt ≤ a0.balance) :
    ∀ a ∈ updRows l i (fun b => b - amt), 0 ≤ a.balance := by
  intro a' ha'
  obtain ⟨a, ha, rfl⟩ := mem_updRows ha'
  unfold updRow
  by_cases hid : a.id = i
  · have hla : lookupAccount l i = some a := hid ▸ lookup_of_mem_uniq hu ha
    have ha0 : a = a0 := by
      rw [hla, Option.some.injEq] at hl
      exact hl
    rw [if_pos hid]
    show 0 ≤ a.balance - amt
    rw [ha0]
    exact sub_nonneg.mpr hbal
  · rw [if_neg hid]
    exact h a ha

theorem nonneg_applyOp {s : BankState} (op : Op) (hu : uniqIds s)
    (h : nonnegBalances s) : nonnegBalances (applyOp s op).2 := by
  cases op with
  | dep i amt =>
    show nonnegBalances (deposit s i amt).2
    by_cases hpos : amt ≤ 0
    · rw [deposit_nonpos s i amt hpos]
      exact h
    · cases hl : lookupAccount s.accounts i with
      | none =>
        rw [deposit_missing s i amt hl]
        exact h
      | some a =>
        rw [deposit_committed s i amt hpos (by rw [hl]; rfl)]
        exact nonneg_updRows_add h (le_of_lt (lt_of_not_le hpos))
  | wd i amt =>
    show nonnegBalances (withdraw s i amt).2
    by_cases hpos : amt ≤ 0
    · rw [withdraw_nonpos s i amt hpos]
      exact h
    · cases hl : lookupAccount s.accounts i with
      | none =>
        rw [withdraw_missing s i amt hl]
        exact h
      | some a =>
        by_cases hid : a.id < 0
        · rw [withdraw_negid s i amt hl hid]
          exact h
        · by_cases hbal : a.balance < amt
          · rw [withdraw_insufficient s i amt hl hbal]
            exact h
          · rw [withdraw_committed s i amt hl hid hpos hbal]
            exact nonneg_updRows_sub hu h hl (not_lt.mp hbal)
  | xfer f t amt =>
    show nonnegBalances (transferWith s f t amt none).2
    by_cases hpos : amt ≤ 0
    · rw [transfer_nonpos s f t amt none hpos]
      exact h
    · cases hlf : lookupAccount s.accounts f with
      | none =>
        rw [transfer_from_missing s f t amt none hlf]
        exact h
      | some af =>
        cases hlt : lookupAccount s.accounts t with
        | none =>
          rw [transfer_to_missing s f t amt none hlt]
          exact h
        | some at' =>
          by_cases hids : af.id < 0 ∨ at'.id < 0
          · rw [transfer_negid s f t amt none hlf hlt hids]
            exact h
          · by_cases hbal : af.balance < amt
            · rw [transfer_insufficient s f t amt none hlf hbal]
              exact h
            · rw [transfer_committed s f t amt hlf hlt
                    (fun hc => hids (Or.inl hc)) (fun hc => hids (Or.inr hc)) hpos hbal]
              exact nonneg_updRows_add
                (nonneg_updRows_sub hu h hlf (not_lt.mp hbal))
                (le_of_lt (lt_of_not_le hpos))

/-! Preservation of the reconciliation invariant by every operation. -/

theorem txSum_append (ts1 ts2 : List TransactionRecord) (i : Int) :
    txSum (ts1 ++ ts2) i = txSum ts1 i + txSum ts2 i := by
  unfold txSum
  rw [List.filter_append, List.map_append, List.sum_append]

theorem txSum_single (t : TransactionRecord) (i : Int) :
    txSum [t] i = if t.account_id = i then signedAmount t else 0 := by
  unfold txSum
  by_cases h : t.account_id = i
  · rw [if_pos h]
    simp [List.filter, h]
  · rw [if_neg h]
    simp [List.filter, h]

/-- One UPDATE of balances by delta on account i, together with one audit
record carrying signed value delta for account i, preserves
reconciliation. -/
theorem reconciled_updRows_append {l : List Account} {txs : List TransactionRecord}
    {i : Int} {r : TransactionRecord} {delta : Rat} {f : Rat → Rat}
    (hf : ∀ b, f b = b + delta)
    (h : ∀ a ∈ l, a.balance = txSum txs a.id)
    (hacc : r.account_id = i) (hsgn : signedAmount r = delta) :
    ∀ a' ∈ updRows l i f, a'.balance = txSum (txs ++ [r]) a'.id := by
  intro a' ha'
  obtain ⟨a, ha, rfl⟩ := mem_updRows ha'
  rw [updRow_id, txSum_append, txSum_single, hacc, hsgn]
  unfold updRow
  by_cases hid : a.id = i
  · rw [if_pos hid, if_pos hid.symm]
    show f a.balance = txSum txs a.id + delta
    rw [hf, h a ha]
  · rw [if_neg hid, if_neg (fun hc => hid hc.symm), add_zero]
    exact h a ha

theorem signedAmount_depositRec (s : BankState) (i : Int) (amt : Rat) :
    signedAmount (depositRec s i amt) = amt := by
  simp [signedAmount, depositRec]

theorem signedAmount_withdrawRec (s : BankState) (i : Int) (amt : Rat) :
    signedAmount (withdrawRec s i amt) = -amt := by
  have : ("WITHDRAW" : String) ≠ "DEPOSIT" := by decide
  simp [signedAmount, withdrawRec, this]

theorem signedAmount_transferRecFrom (s : BankState) (f t : Int) (amt : Rat) :
    signedAmount (transferRecFrom s f t amt) = -amt := by
  have : ("TRANSFER" : String) ≠ "DEPOSIT" := by decide
  simp [signedAmount, transferRecFrom, this]

theorem signedAmount_transferRecTo (s : BankState) (f t : Int) (amt : Rat) :
    signedAmount (transferRecTo s f t amt) = amt := by
  simp [signedAmount, transferRecTo]

theorem reconciled_applyOp {s : BankState} (op : Op) (h : reconciled s) :
    reconciled (applyOp s op).2 := by
  cases op with
  | dep i amt =>
    show reconciled (deposit s i amt).2
    by_cases hpos : amt ≤ 0
    · rw [deposit_nonpos s i amt hpos]
      exact h
    · cases hl : lookupAccount s.accounts i with
      | none =>
        rw [deposit_missing s i amt hl]
        exact h
      | some a =>
        rw [deposit_committed s i amt hpos (by rw [hl]; rfl)]
        exact reconciled_updRows_append (fun b => rfl) h rfl
          (signedAmount_depositRec s i amt)
  | wd i amt =>
    show reconciled (withdraw s i amt).2
    by_cases hpos : amt ≤ 0
    · rw [withdraw_nonpos s i amt hpos]
      exact h
    · cases hl : lookupAccount s.accounts i with
      | none =>
        rw [withdraw_missing s i amt hl]
        exact h
      | some a =>
        by_cases hid : a.id < 0
        · rw [withdraw_negid s i amt hl hid]
          exact h
        · by_cases hbal : a.balance < amt
          · rw [withdraw_insufficient s i amt hl hbal]
            exact h
          · rw [withdraw_committed s i amt hl hid hpos hbal]
            exact reconciled_updRows_append (fun b => sub_eq_add_neg b amt) h rfl
              (signedAmount_withdrawRec s i amt)
  | xfer f t amt =>
    show reconciled (transferWith s f t amt none).2
    by_cases hpos : amt ≤ 0
    · rw [transfer_nonpos s f t amt none hpos]
      exact h
    · cases hlf : lookupAccount s.accounts f with
      | none =>
        rw [transfer_from_missing s f t amt none hlf]
        exact h
      | some af =>
        cases hlt : lookupAccount s.accounts t with
        | none =>
          rw [transfer_to_missing s f t amt none hlt]
          exact h
        | some at' =>
          by_cases hids : af.id < 0 ∨ at'.id < 0
          · rw [transfer_negid s f t amt none hlf hlt hids]
            exact h
          · by_cases hbal : af.balance < amt
            · rw [transfer_insufficient s f t amt none hlf hbal]
              exact h
            · rw [transfer_committed s f t amt hlf hlt
                    (fun hc => hids (Or.inl hc)) (fun hc => hids (Or.inr hc)) hpos hbal]
              exact reconciled_updRows_append (fun b => rfl)
                (reconciled_updRows_append (fun b => sub_eq_add_neg b amt) h rfl
                  (signedAmount_transferRecFrom s f t amt))
                rfl (signedAmount_transferRecTo s f t amt)

/-- The transactional phase of withdraw commits whenever the account row
exists, whatever the balance is: the atomic unit never re-checks it. -/
theorem withdrawMutate_ok (s : BankState) (i : Int) (amt : Rat)
    (hex : (lookupAccount s.accounts i).isSome = true) :
    withdrawMutate s i amt = (true, withdrawApplied s i amt) := by
  unfold withdrawMutate runAtomic
  rw [execUnit_cons_none]
  rw [show execStmt s (Stmt.debit i amt) =
        some { s with accounts := updRows s.accounts i (fun b => b - amt) } from rfl,
      Option.some_bind, execUnit_cons_none]
  have hex2 : (lookupAccount (updRows s.accounts i (fun b => b - amt)) i).isSome = true := by
    rw [isSome_lookup_updRows]
    exact hex
  rw [execStmt_insertTx_ok _ _ _ _ _ hex2, Option.some_bind]
  rfl

theorem lookupCustomer_append {l : List Customer} {i : Int} (c0 : Customer)
    (hfresh : ∀ c ∈ l, c.id ≠ i) :
    lookupCustomer (l ++ [c0]) i = lookupCustomer [c0] i := by
  induction l with
  | nil => rfl
  | cons c rest ih =>
    have hne : c.id ≠ i := hfresh c (List.mem_cons_self c rest)
    simp only [List.cons_append, lookupCustomer, if_neg hne]
    exact ih (fun c' hc' => hfresh c' (List.mem_cons_of_mem c hc'))

/-! The claims. -/

/-- Claim C1: every transfer call whose atomic unit is interrupted by a
storage fault — after k of its four effects have been applied, for any k up
to and including a fault at commit time — reports failure and leaves the
entire database state, account balances and transaction log included,
exactly as before the call, so zero new TransactionRecords exist
afterwards. -/
theorem claim_C1_transfer_fault_rolls_back (s : BankState) (f t : Int) (amt : Rat)
    (k : Nat) (hk : k ≤ 4) :
    transferWith s f t amt (some k) = (false, s) := by
  unfold transferWith
  by_cases h1 : amt ≤ 0
  · rw [if_pos h1]
  · rw [if_neg h1]
    by_cases h2 : (getAccount s f).id < 0 ∨ (getAccount s t).id < 0
    · rw [if_pos h2]
    · rw [if_neg h2]
      by_cases h3 : (getAccount s f).balance < amt
      · rw [if_pos h3]
      · rw [if_neg h3]
        unfold runAtomic
        rw [execUnit_fault _ s k (by simpa using hk)]

theorem claim_C1_witness :
    (2 : Nat) ≤ 4 ∧ transferWith stateTwoAccts 1 2 40 (some 2) = (false, stateTwoAccts) :=
  ⟨by decide, claim_C1_transfer_fault_rolls_back stateTwoAccts 1 2 40 2 (by decide)⟩

/-- Claim C2: starting from any state whose accounts all have nonnegative
balances (account creation starts them at zero) and whose account ids are
unique, every finite sequence of deposit, withdraw and transfer operations
leaves every balance nonnegative — in particular after each committed
operation, since every prefix of the sequence is itself such a sequence. -/
theorem claim_C2_balances_nonneg (ops : List Op) :
    ∀ s : BankState, uniqIds s → nonnegBalances s → nonnegBalances (runOps s ops) := by
  induction ops with
  | nil =>
    intro s _ h
    exact h
  | cons op rest ih =>
    intro s hu h
    show nonnegBalances (runOps (applyOp s op).2 rest)
    exact ih _ (uniqIds_applyOp op hu) (nonneg_applyOp op hu h)

theorem claim_C2_witness :
    uniqIds stateTwoFresh ∧ nonnegBalances stateTwoFresh ∧
      nonnegBalances (runOps stateTwoFresh demoOps) :=
  ⟨by decide, by decide,
   claim_C2_balances_nonneg demoOps stateTwoFresh (by decide) (by decide)⟩

/-- Claim C3: starting from any reconciled state (e.g. freshly created
accounts at balance zero with an empty log), every finite sequence of
deposit, withdraw and transfer operations keeps every account's balance
equal to the sum of the signed amounts of the committed TransactionRecords
referencing it — DEPOSIT records positive, WITHDRAW and TRANSFER debit-leg
records negative — in particular after each committed operation. -/
theorem claim_C3_reconciliation (ops : List Op) :
    ∀ s : BankState, reconciled s → reconciled (runOps s ops) := by
  induction ops with
  | nil =>
    intro s h
    exact h
  | cons op rest ih =>
    intro s h
    show reconciled (runOps (applyOp s op).2 rest)
    exact ih _ (reconciled_applyOp op h)

theorem claim_C3_witness :
    reconciled stateTwoFresh ∧ reconciled (runOps stateTwoFresh demoOps) :=
  ⟨by decide, claim_C3_reconciliation demoOps stateTwoFresh (by decide)⟩

/-- Claim C5: withdraw rejects nonpositive amounts, declines with no
mutation of any balance or of the log when the account is missing or the
balance is insufficient, and otherwise commits: it decrements the
account's balance by the amount and appends exactly one WITHDRAW record of
that amount. -/
theorem claim_C5_withdraw_spec (s : BankState) (i : Int) (amt : Rat) :
    (amt ≤ 0 → withdraw s i amt = (false, s)) ∧
    (lookupAccount s.accounts i = none → withdraw s i amt = (false, s)) ∧
    (∀ a, lookupAccount s.accounts i = some a → a.balance < amt →
      withdraw s i amt = (false, s)) ∧
    (∀ a, lookupAccount s.accounts i = some a → ¬ a.id < 0 → 0 < amt →
      amt ≤ a.balance →
      withdraw s i amt = (true, withdrawApplied s i amt) ∧
      (withdraw s i amt).2.transactions = s.transactions ++ [withdrawRec s i amt] ∧
      (getAccount (withdraw s i amt).2 i).balance = a.balance - amt) := by
  refine ⟨fun h => withdraw_nonpos s i amt h,
          fun h => withdraw_missing s i amt h,
          fun a ha hbal => withdraw_insufficient s i amt ha hbal,
          fun a ha hid hpos hbal => ?_⟩
  have hw := withdraw_committed s i amt ha hid (not_le.mpr hpos) (not_lt.mpr hbal)
  rw [hw]
  refine ⟨rfl, rfl, ?_⟩
  have hl2 : lookupAccount (updRows s.accounts i (fun b => b - amt)) i
      = some (updRow i (fun b => b - amt) a) := by
    rw [lookup_updRows, ha]
    rfl
  unfold getAccount
  rw [show (true, withdrawApplied s i amt).2.accounts
        = updRows s.accounts i (fun b => b - amt) from rfl, hl2]
  show (updRow i (fun b => b - amt) a).balance = a.balance - amt
  unfold updRow
  rw [if_pos (lookupAccount_id ha)]

theorem claim_C5_witness :
    lookupAccount stateBal100.accounts 1 =
      some { id := 1, customer_id := 1, type := "SAVINGS", balance := 100 } ∧
    (withdraw stateBal100 1 50).1 = true :=
  ⟨by decide,
   by rw [((claim_C5_withdraw_spec stateBal100 1 50).2.2.2
            { id := 1, customer_id := 1, type := "SAVINGS", balance := 100 }
            (by decide) (by decide) (by decide) (by decide)).1]⟩

/-- Claim C6: deposit rejects nonpositive amounts before touching storage,
leaving everything unchanged and reporting decline; a positive deposit to
an existing account commits, increments the balance by the amount and
appends exactly one DEPOSIT record; a deposit to a missing account fails
(the INSERT violates the foreign key inside the atomic unit, which is
rolled back) with no partial effect — no record, no balance change. -/
theorem claim_C6_deposit_spec (s : BankState) (i : Int) (amt : Rat) :
    (amt ≤ 0 → deposit s i amt = (false, s)) ∧
    (lookupAccount s.accounts i = none → deposit s i amt = (false, s)) ∧
    (∀ a, lookupAccount s.accounts i = some a → 0 < amt →
      deposit s i amt = (true, depositApplied s i amt) ∧
      (deposit s i amt).2.transactions = s.transactions ++ [depositRec s i amt] ∧
      (getAccount (deposit s i amt).2 i).balance = a.balance + amt) := by
  refine ⟨fun h => deposit_nonpos s i amt h,
          fun h => deposit_missing s i amt h,
          fun a ha hpos => ?_⟩
  have hd := deposit_committed s i amt (not_le.mpr hpos) (by rw [ha]; rfl)
  rw [hd]
  refine ⟨rfl, rfl, ?_⟩
  have hl2 : lookupAccount (updRows s.accounts i (fun b => b + amt)) i
      = some (updRow i (fun b => b + amt) a) := by
    rw [lookup_updRows, ha]
    rfl
  unfold getAccount
  rw [show (true, depositApplied s i amt).2.accounts
        = updRows s.accounts i (fun b => b + amt) from rfl, hl2]
  show (updRow i (fun b => b + amt) a).balance = a.balance + amt
  unfold updRow
  rw [if_pos (lookupAccount_id ha)]

theorem claim_C6_witness :
    lookupAccount stateTwoAccts.accounts 2 =
      some { id := 2, customer_id := 1, type := "CURRENT", balance := 30 } ∧
    deposit stateTwoAccts 2 20 = (true, depositApplied stateTwoAccts 2 20) :=
  ⟨by decide,
   ((claim_C6_deposit_spec stateTwoAccts 2 20).2.2
      { id := 2, customer_id := 1, type := "CURRENT", balance := 30 }
      (by decide) (by decide)).1⟩

/-- Claim C7: a transfer between two distinct existing accounts with a
positive amount covered by the source balance commits: it reports success,
decrements the source balance by the amount, increments the destination
balance by the amount, and appends exactly two TransactionRecords — one
TRANSFER on the source and one DEPOSIT on the destination, both of that
amount — and nothing else. -/
theorem claim_C7_transfer_success (s : BankState) (f t : Int) (amt : Rat)
    (af at' : Account) (hft : f ≠ t)
    (hf : lookupAccount s.accounts f = some af)
    (ht : lookupAccount s.accounts t = some at')
    (hidf : ¬ af.id < 0) (hidt : ¬ at'.id < 0)
    (hpos : 0 < amt) (hbal : amt ≤ af.balance) :
    (transfer s f t amt).1 = true ∧
    (getAccount (transfer s f t amt).2 f).balance = af.balance - amt ∧
    (getAccount (transfer s f t amt).2 t).balance = at'.balance + amt ∧
    (transfer s f t amt).2.transactions =
      s.transactions ++ [transferRecFrom s f t amt, transferRecTo s f t amt] := by
  have hx : transfer s f t amt = (true, transferApplied s f t amt) :=
    transfer_committed s f t amt hf ht hidf hidt (not_le.mpr hpos) (not_lt.mpr hbal)
  rw [hx]
  have haf : af.id = f := lookupAccount_id hf
  have hat : at'.id = t := lookupAccount_id ht
  refine ⟨rfl, ?_, ?_, transferApplied_transactions s f t amt⟩
  · have h1 : updRow f (fun b => b - amt) af = { af with balance := af.balance - amt } := by
      unfold updRow
      rw [if_pos haf]
    have h2 : updRow t (fun b => b + amt) { af with balance := af.balance - amt }
        = { af with balance := af.balance - amt } := by
      unfold updRow
      rw [if_neg (show ¬ af.id = t from fun hc => hft (haf.symm.trans hc))]
    have hl2 : lookupAccount
        (updRows (updRows s.accounts f (fun b => b - amt)) t (fun b => b + amt)) f
        = some { af with balance := af.balance - amt } := by
      rw [lookup_updRows, lookup_updRows, hf]
      show some (updRow t (fun b => b + amt) (updRow f (fun b => b - amt) af)) = _
      rw [h1, h2]
    unfold getAccount
    rw [show (true, transferApplied s f t amt).2.accounts
          = updRows (updRows s.accounts f (fun b => b - amt)) t (fun b => b + amt) from rfl,
        hl2]
  · have h1 : updRow f (fun b => b - amt) at' = at' := by
      unfold updRow
      rw [if_neg (show ¬ at'.id = f from fun hc => hft (hc.symm.trans hat))]
    have h2 : updRow t (fun b => b + amt) at' = { at' with balance := at'.balance + amt } := by
      unfold updRow
      rw [if_pos hat]
    have hl2 : lookupAccount
        (updRows (updRows s.accounts f (fun b => b - amt)) t (fun b => b + amt)) t
        = some { at' with balance := at'.balance + amt } := by
      rw [lookup_updRows, lookup_updRows, ht]
      show some (updRow t (fun b => b + amt) (updRow f (fun b => b - amt) at')) = _
      rw [h1, h2]
    unfold getAccount
    rw [show (true, transferApplied s f t amt).2.accounts
          = updRows (updRows s.accounts f (fun b => b - amt)) t (fun b => b + amt) from rfl,
        hl2]

theorem claim_C7_witness :
    (1 : Int) ≠ 2 ∧
    lookupAccount stateTwoAccts.accounts 1 =
      some { id := 1, customer_id := 1, type := "SAVINGS", balance := 100 } ∧
    (transfer stateTwoAccts 1 2 40).1 = true :=
  ⟨by decide, by decide,
   (claim_C7_transfer_success stateTwoAccts 1 2 40
      { id := 1, customer_id := 1, type := "SAVINGS", balance := 100 }
      { id := 2, customer_id := 1, type := "CURRENT", balance := 30 }
      (by decide) (by decide) (by decide) (by decide) (by decide)
      (by decide) (by decide)).1⟩

/-- Claim C10: self-transfer is permitted: transferring any positive amount
covered by the balance from an existing account to itself reports success,
leaves the accounts table — in particular that account's balance — exactly
unchanged (the debit and the credit cancel), and appends exactly two
records to that account's log, one TRANSFER and one DEPOSIT, both of that
amount. -/
theorem claim_C10_self_transfer (s : BankState) (i : Int) (amt : Rat)
    (a : Account) (h : lookupAccount s.accounts i = some a) (hid : ¬ a.id < 0)
    (hpos : 0 < amt) (hbal : amt ≤ a.balance) :
    (transfer s i i amt).1 = true ∧
    (transfer s i i amt).2.accounts = s.accounts ∧
    (getAccount (transfer s i i amt).2 i).balance = a.balance ∧
    (transfer s i i amt).2.transactions =
      s.transactions ++ [transferRecFrom s i i amt, transferRecTo s i i amt] := by
  have hx : transfer s i i amt = (true, transferApplied s i i amt) :=
    transfer_committed s i i amt h h hid hid (not_le.mpr hpos) (not_lt.mpr hbal)
  rw [hx]
  have hacc : (true, transferApplied s i i amt).2.accounts = s.accounts := by
    show updRows (updRows s.accounts i (fun b => b - amt)) i (fun b => b + amt) = s.accounts
    rw [updRows_updRows]
    have hfun : (fun b : Rat => b - amt + amt) = (fun b => b) := by
      funext b
      ring
    rw [hfun, updRows_ident]
  refine ⟨rfl, hacc, ?_, transferApplied_transactions s i i amt⟩
  unfold getAccount
  rw [hacc, h]

/-- Claim C4 is violated by the code (the claim states the intended
behaviour).  With account 1 at balance 100, the interleaving in which both
concurrent withdraw(1,100) calls run their autocommit balance check before
either runs its transactional debit — a schedule the code permits, because
getAccount runs outside the atomic unit and the unit never re-checks —
makes both calls report success and drives the final balance to -100
instead of exactly one success and a final balance of 0. -/
theorem claim_C4_race_both_succeed_overdraw :
    (twoWithdrawsBothCheckFirst stateBal100 1 100).1 = true ∧
    (twoWithdrawsBothCheckFirst stateBal100 1 100).2.1 = true ∧
    (getAccount (twoWithdrawsBothCheckFirst stateBal100 1 100).2.2 1).balance = -100 := by
  refine ⟨by decide, by decide, ?_⟩
  norm_num [twoWithdrawsBothCheckFirst, withdrawCheck, withdrawMutate, runAtomic,
    execUnit, execStmt, getAccount, lookupAccount, updRows, updRow,
    stateBal100, missingAccount]

/-- Claim C8 as stated is false on the code: here is a concrete pair of
states exercising the two cases — initialState has no account 1
(not-found) while statePoor's account 1 exists with balance 5 < 10
(insufficient funds) — and withdraw reports the identical plain false
outcome in both, as does transfer, so the reported results do not
differ. -/
theorem claim_C8_counterexample :
    lookupAccount initialState.accounts 1 = none ∧
    lookupAccount statePoor.accounts 1 =
      some { id := 1, customer_id := 1, type := "SAVINGS", balance := 5 } ∧
    ((5 : Rat) < 10) ∧
    withdraw initialState 1 10 = (false, initialState) ∧
    withdraw statePoor 1 10 = (false, statePoor) ∧
    (withdraw initialState 1 10).1 = (withdraw statePoor 1 10).1 ∧
    (transfer initialState 1 2 10).1 = (transfer statePoor 1 2 10).1 := by
  decide

/-- Claim C8 amended: withdraw and transfer report their outcome as a
single boolean, and both the not-found case and the
exists-but-insufficient-funds case yield the same value false, so the
returned outcome does not let the caller distinguish the two cases. -/
theorem claim_C8_amended (s1 : BankState) (i1 j1 : Int) (amt1 : Rat)
    (s2 : BankState) (i2 j2 : Int) (amt2 : Rat) (a2 : Account)
    (hmiss : lookupAccount s1.accounts i1 = none)
    (hsome : lookupAccount s2.accounts i2 = some a2)
    (hbal : a2.balance < amt2) :
    (withdraw s1 i1 amt1).1 = false ∧ (withdraw s2 i2 amt2).1 = false ∧
    (transfer s1 i1 j1 amt1).1 = false ∧ (transfer s2 i2 j2 amt2).1 = false ∧
    (withdraw s1 i1 amt1).1 = (withdraw s2 i2 amt2).1 ∧
    (transfer s1 i1 j1 amt1).1 = (transfer s2 i2 j2 amt2).1 := by
  have h1 : withdraw s1 i1 amt1 = (false, s1) := withdraw_missing s1 i1 amt1 hmiss
  have h2 : withdraw s2 i2 amt2 = (false, s2) := withdraw_insufficient s2 i2 amt2 hsome hbal
  have h3 : transfer s1 i1 j1 amt1 = (false, s1) :=
    transfer_from_missing s1 i1 j1 amt1 none hmiss
  have h4 : transfer s2 i2 j2 amt2 = (false, s2) :=
    transfer_insufficient s2 i2 j2 amt2 none hsome hbal
  rw [h1, h2, h3, h4]
  exact ⟨rfl, rfl, rfl, rfl, rfl, rfl⟩

theorem claim_C8_witness :
    lookupAccount initialState.accounts 1 = none ∧
    (withdraw initialState 1 10).1 = (withdraw statePoor 1 10).1 :=
  ⟨by decide,
   (claim_C8_amended initialState 1 2 10 statePoor 1 2 10
      { id := 1, customer_id := 1, type := "SAVINGS", balance := 5 }
      (by decide) (by decide) (by decide)).2.2.2.2.1⟩

/-- Claim C9 as stated is false on the code: createCustomer never
validates the name; called with the empty name on the empty database it
returns the fresh id 1 — a positive identifier, not the failure signal
-1 — and creates a Customer row carrying the empty name. -/
theorem claim_C9_counterexample :
    (createCustomer initialState "" "a@x.com" "555-0100").1 = 1 ∧
    0 < (createCustomer initialState "" "a@x.com" "555-0100").1 ∧
    (createCustomer initialState "" "a@x.com" "555-0100").2.customers =
      [{ id := 1, name := "", email := "a@x.com", phone := "555-0100" }] :=
  ⟨rfl, by decide, rfl⟩

/-- Claim C9 amended: createCustomer performs no name validation: for
every name — the empty string included — it appends exactly one Customer
row carrying that name and returns the newly assigned identifier, under
which the new customer can then be looked up; the failure signal -1 arises
only from storage faults, which this path never raises. -/
theorem claim_C9_amended (s : BankState) (n e p : String)
    (hfresh : ∀ c ∈ s.customers, c.id ≠ s.nextCustomerId) :
    (createCustomer s n e p).1 = s.nextCustomerId ∧
    (createCustomer s n e p).2.customers.length = s.customers.length + 1 ∧
    getCustomer (createCustomer s n e p).2 s.nextCustomerId =
      { id := s.nextCustomerId, name := n, email := e, phone := p } := by
  refine ⟨rfl, ?_, ?_⟩
  · show (s.customers ++
        [({ id := s.nextCustomerId, name := n, email := e, phone := p } : Customer)]).length
        = s.customers.length + 1
    rw [List.length_append]
    rfl
  · unfold getCustomer
    rw [show (createCustomer s n e p).2.customers
          = s.customers ++
              [({ id := s.nextCustomerId, name := n, email := e, phone := p } : Customer)]
        from rfl,
        lookupCustomer_append _ hfresh,
        show lookupCustomer
              [({ id := s.nextCustomerId, name := n, email := e, phone := p } : Customer)]
              s.nextCustomerId
            = some { id := s.nextCustomerId, name := n, email := e, phone := p } from by
          unfold lookupCustomer
          rw [if_pos rfl]]

theorem claim_C9_witness :
    (∀ c ∈ initialState.customers, c.id ≠ initialState.nextCustomerId) ∧
    (createCustomer initialState "Alice" "a@x.com" "555-0100").1
      = initialState.nextCustomerId :=
  ⟨by decide,
   (claim_C9_amended initialState "Alice" "a@x.com" "555-0100" (by decide)).1⟩

theorem claim_C10_witness :
    lookupAccount stateBal100.accounts 1 =
      some { id := 1, customer_id := 1, type := "SAVINGS", balance := 100 } ∧
    (transfer stateBal100 1 1 60).1 = true ∧
    (transfer stateBal100 1 1 60).2.accounts = stateBal100.accounts :=
  ⟨by decide,
   (claim_C10_self_transfer stateBal100 1 60
      { id := 1, customer_id := 1, type := "SAVINGS", balance := 100 }
      (by decide) (by decide) (by decide) (by decide)).1,
   (claim_C10_self_transfer stateBal100 1 60
      { id := 1, customer_id := 1, type := "SAVINGS", balance := 100 }
      (by decide) (by decide) (by decide) (by decide)).2.1⟩

end Banking
